import Mathlib

/-!
Verification of the attribute-encoding layer of
sovrin-foundation/aries-credx-framework-rs.

The authoritative code is the generic trait `AttributeEncoder` in
`src/encoding/mod.rs`: its five provided methods
(`encode_from_rfc3339_as_unixtimestamp`, `encode_from_rfc3339_as_dayssince1900`,
`encode_from_f64`, `encode_from_isize`, `encode_from_usize`) are shallowly
embedded here over an integer model of the backend domain type `Self::Output`.

Modelling conventions:
* `Self::Output` is modelled as `ℤ`.  `Output: Add + Sub + From<u64>` is the
  ring structure of `ℤ` together with the canonical embedding of `u64` values;
  the backend-specific data (`max()`, `zero_center()`) is a structure
  `AttributeEncoder` of two integers.  The in-repo backends both use
  `zero_center = 2^254` (`BITS_IN_ZERO = 254`).
* `from_vec` (construction from big-endian bytes) is modelled by
  `fromBytesBE`; the code's `BigInt::to_bytes_be` is modelled by `toBytesBE`
  on the magnitude (`Int.natAbs`) together with the sign trichotomy
  (`NoSign`/`Plus`/`Minus` of `num_bigint`).
* Machine-integer casts follow Rust semantics: `i64 as u64` is `castU64`
  (reduction mod 2^64), and release-mode signed negation wraps two's
  complement (`wrapI64`).
* An `f64` input is modelled by its IEEE-754 class together with the decimal
  decomposition `(digits, scale)` that `bigdecimal::BigDecimal::from(f64)`
  produces (value = digits / 10^scale; bigdecimal 0.1.x builds this from the
  shortest round-trip decimal display of the double).  `BigDecimal::double`
  doubles `digits` and keeps `scale`, and
  `into_bigint_and_exponent` returns `digits` and discards `scale` — exactly
  as the Rust code consumes it.
* `chrono::DateTime::parse_from_rfc3339` (an external dependency) is modelled
  by `parseRFC3339`: strict RFC3339 `YYYY-MM-DDTHH:MM:SS[.frac](Z|±HH:MM)`
  with calendar validation, producing the instant as Unix epoch seconds
  (`timestamp()`) plus subsecond nanoseconds.  The error payload string of
  `format!("{:?}", e)` is abstracted to a fixed message.
-/

/-- `const BITS_IN_ZERO: usize = 254` from `src/encoding/mod.rs`. -/
def BITS_IN_ZERO : ℕ := 254

/-- Model of the backend-specific data of the `AttributeEncoder` trait: the
`max()` and `zero_center()` required methods, as integers.  Both in-repo
backends take `zero_center = 2^254`. -/
structure AttributeEncoder where
  max : ℤ
  zero_center : ℤ
deriving DecidableEq

/-- The backend constants as written in `src/encoding/rsa_native.rs`:
`zero()` sets bit 254 of 1, i.e. `2^254`; `max()` is the 65-digit hex
constant `FFF…F` (one of its eight groups has nine `F`s), i.e. `2^260 - 1`
taking all digits.  (The other backend, BLS12-381, has `max` equal to the
group order, between `2^254` and `2^255`; every theorem below that fixes a
backend only uses bounds satisfied by both.) -/
def idealEncoder : AttributeEncoder := ⟨2 ^ 260 - 1, 2 ^ 254⟩

/-- Rust `x as u64` on a signed 64-bit value: reduction modulo `2^64` into
`[0, 2^64)`. -/
def castU64 (z : ℤ) : ℤ := z % 2 ^ 64

/-- Rust release-mode (two's-complement wrapping) normalization of a signed
64-bit arithmetic result back into `[-2^63, 2^63)`. -/
def wrapI64 (z : ℤ) : ℤ := (z + 2 ^ 63) % 2 ^ 64 - 2 ^ 63

/-- Model of `Output::from_vec` for a value-faithful backend: interpret a
big-endian byte string as a natural number (this is what
`BigNum::from_slice` and the zero-padded `FieldElement::from_bytes` do). -/
def fromBytesBE (l : List ℕ) : ℕ :=
  l.foldl (fun acc b => acc * 256 + b) 0

/-- Big-endian bytes of a natural number (empty for 0), with explicit fuel;
models `num_bigint::BigInt::to_bytes_be` applied to the magnitude. -/
def toBytesBEAux : ℕ → ℕ → List ℕ
  | 0, _ => []
  | fuel + 1, n => if n = 0 then [] else toBytesBEAux fuel (n / 256) ++ [n % 256]

/-- Big-endian bytes of a natural number. -/
def toBytesBE (n : ℕ) : List ℕ := toBytesBEAux n n

/-- The `for _ in 0..BITS_IN_ZERO { b = b.double(); }` loop of
`encode_from_f64`: `BigDecimal::double` doubles the decimal significand and
keeps the scale, so the loop acts on the significand alone. -/
def doubleTimes : ℕ → ℤ → ℤ
  | 0, d => d
  | k + 1, d => doubleTimes k (2 * d)

/-- `std::num::FpCategory`, the IEEE-754 class returned by `f64::classify`. -/
inductive FpCategory where
  | nan
  | infinite
  | zero
  | subnormal
  | normal
deriving DecidableEq

/-- Model of an `f64` input as the data `encode_from_f64` consumes: its
IEEE-754 class, its sign bit (`is_sign_positive`), and the decimal
decomposition `(digits, scale)` of `BigDecimal::from(value)`, whose exact
rational value is `digits / 10^scale`.  For a normal value `digits ≠ 0` and
the sign of `digits` agrees with the sign bit;
`digits`/`scale` are unused by the code for the non-normal classes. -/
structure Float64 where
  cls : FpCategory
  signPositive : Bool
  digits : ℤ
  scale : ℕ
deriving DecidableEq

/-- The real-number value of a finite float model. -/
def Float64.val (v : Float64) : ℚ := (v.digits : ℚ) / 10 ^ v.scale

/-- The IEEE-754 negation of a finite float: same class and scale, negated
sign bit and decimal significand. -/
def Float64.mirror (v : Float64) : Float64 :=
  ⟨v.cls, !v.signPositive, -v.digits, v.scale⟩

/-- `f64::NAN`. -/
def f64NaN : Float64 := ⟨.nan, true, 0, 0⟩

/-- A subnormal double with the given sign bit. -/
def f64Subnormal (pos : Bool) : Float64 := ⟨.subnormal, pos, 0, 0⟩

/-- A signed zero with the given sign bit. -/
def f64Zero (pos : Bool) : Float64 := ⟨.zero, pos, 0, 0⟩

/-- `f64::INFINITY` / `f64::NEG_INFINITY` by sign bit. -/
def f64Inf (pos : Bool) : Float64 := ⟨.infinite, pos, 0, 0⟩

/-- The double `1.5` (decimal display `1.5`: digits 15, scale 1). -/
def f64OnePointFive : Float64 := ⟨.normal, true, 15, 1⟩

/-- The double `2.0` (decimal display `2`: digits 2, scale 0). -/
def f64Two : Float64 := ⟨.normal, true, 2, 0⟩

/-- The double `1.33` (shortest round-trip decimal display `1.33`:
digits 133, scale 2). -/
def f64OnePoint33 : Float64 := ⟨.normal, true, 133, 2⟩

/-- The double `-1.33` (digits −133, scale 2). -/
def f64NegOnePoint33 : Float64 := ⟨.normal, false, -133, 2⟩

/-- The double `-1.5` (digits −15, scale 1). -/
def f64NegOnePointFive : Float64 := ⟨.normal, false, -15, 1⟩

/-- The double `100.0` (decimal display `100`: digits 100, scale 0). -/
def f64Hundred : Float64 := ⟨.normal, true, 100, 0⟩

/-- Shallow embedding of `AttributeEncoder::encode_from_f64`
(`src/encoding/mod.rs` lines 41–76).  The normal branch doubles the
`BigDecimal` 254 times, takes `into_bigint_and_exponent` and drops the
exponent, converts the magnitude's big-endian bytes through `from_vec`, and
applies the `NoSign`/`Plus`/`Minus` rule. -/
def encode_from_f64 (B : AttributeEncoder) (v : Float64) : Except String ℤ :=
  .ok <|
    match v.cls with
    | .nan => (1 : ℤ)
    | .subnormal => 2
    | .zero => B.zero_center
    | .infinite => if v.signPositive then B.max - 9 else 8
    | .normal =>
        let bi : ℤ := doubleTimes BITS_IN_ZERO v.digits
        let f : ℤ := (fromBytesBE (toBytesBE bi.natAbs) : ℤ)
        if bi = 0 then B.zero_center
        else if 0 < bi then f
        else B.zero_center - f

/-- Digit value of an ASCII character, if it is a digit. -/
def digitVal (c : Char) : Option ℕ :=
  if c.isDigit then some (c.toNat - 48) else none

/-- Read exactly two decimal digits. -/
def read2 : List Char → Option (ℕ × List Char)
  | c1 :: c2 :: rest => do
    let d1 ← digitVal c1
    let d2 ← digitVal c2
    pure (d1 * 10 + d2, rest)
  | _ => none

/-- Read exactly four decimal digits. -/
def read4 : List Char → Option (ℕ × List Char)
  | c1 :: c2 :: c3 :: c4 :: rest => do
    let d1 ← digitVal c1
    let d2 ← digitVal c2
    let d3 ← digitVal c3
    let d4 ← digitVal c4
    pure (((d1 * 10 + d2) * 10 + d3) * 10 + d4, rest)
  | _ => none

/-- Require one specific character. -/
def expectChar (c : Char) : List Char → Option (List Char)
  | x :: rest => if x = c then some rest else none
  | _ => none

/-- The RFC3339 date/time separator: `T` or `t`. -/
def expectSep : List Char → Option (List Char)
  | x :: rest => if x = 'T' ∨ x = 't' then some rest else none
  | _ => none

/-- Read a maximal run of decimal digits. -/
def readDigits : List Char → List ℕ × List Char
  | [] => ([], [])
  | c :: rest =>
    match digitVal c with
    | some d =>
      match readDigits rest with
      | (ds, r) => (d :: ds, r)
    | none => ([], c :: rest)

/-- Subsecond digits to nanoseconds: the first nine digits, right-padded
with zeros (further digits are parsed but ignored, as in chrono). -/
def nanosOfDigits (ds : List ℕ) : ℕ :=
  ((ds ++ List.replicate 9 0).take 9).foldl (fun acc d => acc * 10 + d) 0

/-- Optional fractional-second part: a dot followed by at least one digit. -/
def readFraction : List Char → Option (ℕ × List Char)
  | '.' :: rest =>
    (match readDigits rest with
     | ([], _) => none
     | (ds, r) => some (nanosOfDigits ds, r))
  | cs => some (0, cs)

/-- Numeric UTC offset `HH:MM` after an explicit sign; chrono validates it
against the `FixedOffset` range. -/
def readOffsetHM (sign : ℤ) (cs : List Char) : Option (ℤ × List Char) := do
  let (h, cs) ← read2 cs
  let cs ← expectChar ':' cs
  let (m, cs) ← read2 cs
  if h ≤ 23 ∧ m ≤ 59 then
    pure (sign * ((h : ℤ) * 3600 + (m : ℤ) * 60), cs)
  else
    none

/-- UTC offset: `Z`, `z`, or a signed `HH:MM`. -/
def readOffset : List Char → Option (ℤ × List Char)
  | 'Z' :: rest => some (0, rest)
  | 'z' :: rest => some (0, rest)
  | '+' :: rest => readOffsetHM 1 rest
  | '-' :: rest => readOffsetHM (-1) rest
  | _ => none

/-- Proleptic-Gregorian leap-year test. -/
def isLeap (y : ℕ) : Bool :=
  y % 4 = 0 && (y % 100 ≠ 0 || y % 400 = 0)

/-- Number of days in a month. -/
def daysInMonth (y m : ℕ) : ℕ :=
  if m = 2 then (if isLeap y then 29 else 28)
  else if m = 4 ∨ m = 6 ∨ m = 9 ∨ m = 11 then 30
  else 31

/-- Days from 1970-01-01 to the civil date `y-m-d`
(Howard Hinnant's `days_from_civil` algorithm, as used by calendar
libraries; floor divisions). -/
def daysFromCivil (y m d : ℕ) : ℤ :=
  let yi : ℤ := if m ≤ 2 then (y : ℤ) - 1 else (y : ℤ)
  let era : ℤ := Int.fdiv yi 400
  let yoe : ℤ := yi - era * 400
  let mp : ℤ := if m ≤ 2 then (m : ℤ) + 9 else (m : ℤ) - 3
  let doy : ℤ := Int.fdiv (153 * mp + 2) 5 + (d : ℤ) - 1
  let doe : ℤ := yoe * 365 + Int.fdiv yoe 4 - Int.fdiv yoe 100 + doy
  era * 146097 + doe - 719468

/-- A parsed `DateTime<FixedOffset>`, reduced to the data the encoders
consume: `timestamp()` (Unix epoch seconds of the instant, leap second
folded onto second 59) and the subsecond nanoseconds. -/
structure FixedInstant where
  epochSecs : ℤ
  nanos : ℕ
deriving DecidableEq

/-- `t1` denotes a strictly earlier instant than `t2`. -/
def FixedInstant.earlier (t1 t2 : FixedInstant) : Prop :=
  t1.epochSecs < t2.epochSecs ∨
    (t1.epochSecs = t2.epochSecs ∧ t1.nanos < t2.nanos)

instance (t1 t2 : FixedInstant) : Decidable (t1.earlier t2) := by
  unfold FixedInstant.earlier
  infer_instance

/-- Model of `chrono::DateTime::parse_from_rfc3339`: strict RFC3339
`full-date "T" partial-time [frac] offset`, with calendar and range
validation; second 60 (leap second) is stored chrono-style as second 59 with
an extra 10^9 nanoseconds.  `mkInstant` is the final validation and
`timestamp()` computation, `parseRFC3339` the surface syntax. -/
def mkInstant (y mo d h mi se frac : ℕ) (off : ℤ) : Option FixedInstant :=
  if 1 ≤ mo ∧ mo ≤ 12 ∧ 1 ≤ d ∧ d ≤ daysInMonth y mo ∧
      h ≤ 23 ∧ mi ≤ 59 ∧ se ≤ 60 then
    some ⟨daysFromCivil y mo d * 86400 +
            (h : ℤ) * 3600 + (mi : ℤ) * 60 + (min se 59 : ℕ) - off,
          frac + (if se = 60 then 1000000000 else 0)⟩
  else
    none

/-- Model of `chrono::DateTime::parse_from_rfc3339` (see `mkInstant`). -/
def parseRFC3339 (s : String) : Option FixedInstant :=
  match read4 s.toList with
  | none => none
  | some (y, cs) =>
  match expectChar '-' cs with
  | none => none
  | some cs =>
  match read2 cs with
  | none => none
  | some (mo, cs) =>
  match expectChar '-' cs with
  | none => none
  | some cs =>
  match read2 cs with
  | none => none
  | some (d, cs) =>
  match expectSep cs with
  | none => none
  | some cs =>
  match read2 cs with
  | none => none
  | some (h, cs) =>
  match expectChar ':' cs with
  | none => none
  | some cs =>
  match read2 cs with
  | none => none
  | some (mi, cs) =>
  match expectChar ':' cs with
  | none => none
  | some cs =>
  match read2 cs with
  | none => none
  | some (se, cs) =>
  match readFraction cs with
  | none => none
  | some (frac, cs) =>
  match readOffset cs with
  | none => none
  | some (off, cs) =>
  if cs.isEmpty then mkInstant y mo d h mi se frac off else none

/-- The fixed error payload standing in for chrono's
`format!("{:?}", e)` parse-error message. -/
def parseErrMsg : String := "MalformedInput"

/-- Total nanoseconds of an instant since the Unix epoch (used to model
`chrono::Duration` subtraction of two `DateTime`s exactly). -/
def totalNanos (t : FixedInstant) : ℤ :=
  t.epochSecs * 1000000000 + (t.nanos : ℤ)

/-- `chrono::Duration::num_seconds` of a duration given in nanoseconds:
whole seconds, truncated toward zero. -/
def durNumSeconds (nanos : ℤ) : ℤ := Int.tdiv nanos 1000000000

/-- `chrono::Duration::num_days` via `num_seconds`: whole days, truncated
toward zero. -/
def durNumDays (nanos : ℤ) : ℤ := Int.tdiv (durNumSeconds nanos) 86400

/-- Shallow embedding of
`AttributeEncoder::encode_from_rfc3339_as_unixtimestamp`
(`src/encoding/mod.rs` lines 24–27): parse, then
`zero_center() + Output::from(dt.timestamp() as u64)`. -/
def encode_from_rfc3339_as_unixtimestamp (B : AttributeEncoder) (s : String) :
    Except String ℤ :=
  match parseRFC3339 s with
  | none => .error parseErrMsg
  | some dt => .ok (B.zero_center + castU64 dt.epochSecs)

/-- The instant at which the code's fixed base string
`"1900-01-01T00:00:00.000+00:00"` parses. -/
def base1900 : FixedInstant := ⟨-2208988800, 0⟩

/-- The whole-day difference (truncated toward zero) between an instant and
the 1900 epoch, as `(dt - base).num_days()` computes it. -/
def days1900 (t : FixedInstant) : ℤ :=
  durNumDays (totalNanos t - totalNanos base1900)

/-- Shallow embedding of
`AttributeEncoder::encode_from_rfc3339_as_dayssince1900`
(`src/encoding/mod.rs` lines 32–36): parse the input and the fixed base
string, then `zero_center() + Output::from((dt - base).num_days() as u64)`. -/
def encode_from_rfc3339_as_dayssince1900 (B : AttributeEncoder) (s : String) :
    Except String ℤ :=
  match parseRFC3339 s with
  | none => .error parseErrMsg
  | some dt =>
    match parseRFC3339 "1900-01-01T00:00:00.000+00:00" with
    | none => .error parseErrMsg
    | some base =>
      .ok (B.zero_center + castU64 (durNumDays (totalNanos dt - totalNanos base)))

/-- Shallow embedding of `AttributeEncoder::encode_from_isize`
(`src/encoding/mod.rs` lines 81–88), with `isize` as a 64-bit signed value:
negative inputs take `zero_center() - Output::from(-value as u64)` (release
semantics: wrapping negation, then cast), nonnegative ones
`zero_center() + Output::from(value as u64)`. -/
def encode_from_isize (B : AttributeEncoder) (v : ℤ) : Except String ℤ :=
  if v < 0 then .ok (B.zero_center - castU64 (wrapI64 (-v)))
  else .ok (B.zero_center + castU64 v)

/-- Shallow embedding of `AttributeEncoder::encode_from_usize`
(`src/encoding/mod.rs` lines 93–95), with `usize` as a 64-bit unsigned
value: `zero_center() + Output::from(value as u64)`. -/
def encode_from_usize (B : AttributeEncoder) (v : ℕ) : Except String ℤ :=
  .ok (B.zero_center + castU64 (v : ℤ))

deriving instance DecidableEq for Except

set_option maxRecDepth 10000

theorem fromBytesBE_snoc (l : List ℕ) (b : ℕ) :
    fromBytesBE (l ++ [b]) = 256 * fromBytesBE l + b := by
  simp [fromBytesBE, List.foldl_append]
  ring

theorem toBytesBEAux_spec : ∀ fuel n, n ≤ fuel →
    fromBytesBE (toBytesBEAux fuel n) = n := by
  intro fuel
  induction fuel with
  | zero =>
    intro n h
    have : n = 0 := Nat.le_zero.mp h
    simp [this, toBytesBEAux, fromBytesBE]
  | succ k ih =>
    intro n h
    by_cases h0 : n = 0
    · simp [h0, toBytesBEAux, fromBytesBE]
    · have hlt : n / 256 < n := Nat.div_lt_self (Nat.pos_of_ne_zero h0) (by norm_num)
      have hd : n / 256 ≤ k := by omega
      simp [toBytesBEAux, h0, fromBytesBE_snoc, ih _ hd]
      omega

/-- Round-trip: decoding the big-endian bytes of `n` gives back `n`; this is
what chaining `to_bytes_be` with `from_vec` computes in the Rust code. -/
theorem fromBytesBE_toBytesBE (n : ℕ) : fromBytesBE (toBytesBE n) = n :=
  toBytesBEAux_spec n n le_rfl

theorem doubleTimes_eq (n : ℕ) : ∀ d : ℤ, doubleTimes n d = d * 2 ^ n := by
  induction n with
  | zero => intro d; simp [doubleTimes]
  | succ k ih =>
    intro d
    rw [doubleTimes, ih (2 * d)]
    ring

/-- Closed form of the normal branch of `encode_from_f64`: a positive
significand encodes to `digits·2^254` (no zero-center offset), a negative one
to `zero_center − |digits|·2^254`. -/
theorem encode_from_f64_normal (B : AttributeEncoder) (v : Float64)
    (h : v.cls = .normal) (hd : v.digits ≠ 0) :
    encode_from_f64 B v =
      .ok (if 0 < v.digits then v.digits * 2 ^ BITS_IN_ZERO
           else B.zero_center - -v.digits * 2 ^ BITS_IN_ZERO) := by
  have hbi : doubleTimes BITS_IN_ZERO v.digits = v.digits * 2 ^ BITS_IN_ZERO :=
    doubleTimes_eq _ _
  have hpow : (0 : ℤ) < 2 ^ BITS_IN_ZERO := by positivity
  simp only [encode_from_f64, h, hbi, fromBytesBE_toBytesBE]
  rcases lt_trichotomy v.digits 0 with hneg | hzero | hpos
  · have h1 : ¬ v.digits * 2 ^ BITS_IN_ZERO = 0 := by
      intro hc
      exact hd (by exact_mod_cast mul_eq_zero.mp hc |>.resolve_right (by positivity))
    have h2 : ¬ 0 < v.digits * 2 ^ BITS_IN_ZERO := by
      push_neg
      exact le_of_lt (mul_neg_of_neg_of_pos hneg hpow)
    have h3 : ((v.digits * 2 ^ BITS_IN_ZERO).natAbs : ℤ) =
        -(v.digits * 2 ^ BITS_IN_ZERO) := by
      have := le_of_lt (mul_neg_of_neg_of_pos hneg hpow)
      omega
    have h4 : ¬ 0 < v.digits := by omega
    simp only [h1, h2, h3, h4, if_false, if_neg]
    ring_nf
  · exact absurd hzero hd
  · have h1 : 0 < v.digits * 2 ^ BITS_IN_ZERO := mul_pos hpos hpow
    have h2 : ¬ v.digits * 2 ^ BITS_IN_ZERO = 0 := ne_of_gt h1
    have h3 : ((v.digits * 2 ^ BITS_IN_ZERO).natAbs : ℤ) =
        v.digits * 2 ^ BITS_IN_ZERO := by omega
    simp [h1, h2, h3, hpos]


/-- C1: the claimed order preservation of the float encoder fails on the
code: `1.5 < 2.0` are finite, normal doubles, yet the encoder maps `1.5` to
`15 · 2^254` (decimal significand 15, scale dropped) and `2.0` to
`2 · 2^254`, so `encode(2.0) < encode(1.5)` — the opposite of the claim.
The slip is `let (bi, _) = b.into_bigint_and_exponent()`, which discards the
decimal scale of the `BigDecimal`. -/
theorem C1_float_order_preservation_code_bug :
    f64OnePointFive.val < f64Two.val ∧
    encode_from_f64 idealEncoder f64OnePointFive = .ok (15 * 2 ^ 254) ∧
    encode_from_f64 idealEncoder f64Two = .ok (2 * 2 ^ 254) ∧
    (2 * 2 ^ 254 : ℤ) < 15 * 2 ^ 254 :=
  ⟨by norm_num [Float64.val, f64OnePointFive, f64Two], by decide, by decide,
   by norm_num⟩

/-- C2: `encode_from_f64` maps NaN to 1, subnormals of either sign to 2,
−∞ to 8, +∞ to `max − 9`, and signed zeros of either sign to `zero_center`;
for every backend whose `max` exceeds 17 (both in-repo backends do by a wide
margin) the four sentinels `1`, `2`, `8`, `max − 9` are pairwise distinct. -/
theorem C2_float_sentinels (B : AttributeEncoder) (hmax : 17 < B.max) :
    encode_from_f64 B f64NaN = .ok 1 ∧
    (∀ pos : Bool, encode_from_f64 B (f64Subnormal pos) = .ok 2) ∧
    encode_from_f64 B (f64Inf false) = .ok 8 ∧
    encode_from_f64 B (f64Inf true) = .ok (B.max - 9) ∧
    (∀ pos : Bool, encode_from_f64 B (f64Zero pos) = .ok B.zero_center) ∧
    ((1 : ℤ) ≠ 2 ∧ (1 : ℤ) ≠ 8 ∧ (1 : ℤ) ≠ B.max - 9 ∧
     (2 : ℤ) ≠ 8 ∧ (2 : ℤ) ≠ B.max - 9 ∧ (8 : ℤ) ≠ B.max - 9) := by
  refine ⟨rfl, fun pos => rfl, rfl, rfl, fun pos => rfl, ?_⟩
  omega

/-- Witness for C2 at the concrete backend constants. -/
theorem C2_float_sentinels_witness :
    17 < idealEncoder.max ∧
    (encode_from_f64 idealEncoder f64NaN = .ok 1 ∧
     (∀ pos : Bool, encode_from_f64 idealEncoder (f64Subnormal pos) = .ok 2) ∧
     encode_from_f64 idealEncoder (f64Inf false) = .ok 8 ∧
     encode_from_f64 idealEncoder (f64Inf true) = .ok (idealEncoder.max - 9) ∧
     (∀ pos : Bool,
        encode_from_f64 idealEncoder (f64Zero pos) = .ok idealEncoder.zero_center) ∧
     ((1 : ℤ) ≠ 2 ∧ (1 : ℤ) ≠ 8 ∧ (1 : ℤ) ≠ idealEncoder.max - 9 ∧
      (2 : ℤ) ≠ 8 ∧ (2 : ℤ) ≠ idealEncoder.max - 9 ∧
      (8 : ℤ) ≠ idealEncoder.max - 9)) :=
  ⟨by norm_num [idealEncoder],
   C2_float_sentinels idealEncoder (by norm_num [idealEncoder])⟩

/-- C3: the claimed sentinel band `8 < encoding < max − 9` for finite
normal inputs fails on the code: the finite normal double `-1.5` encodes to
`zero_center − 15 · 2^254 = -14 · 2^254 < 8`, colliding past the low
sentinels (and, on a field backend, wrapping modulo the order). -/
theorem C3_sentinel_band_code_bug :
    f64NegOnePointFive.cls = .normal ∧
    f64NegOnePointFive.val < 0 ∧
    encode_from_f64 idealEncoder f64NegOnePointFive =
      .ok (idealEncoder.zero_center - 15 * 2 ^ 254) ∧
    idealEncoder.zero_center - 15 * 2 ^ 254 < 8 :=
  ⟨rfl, by norm_num [Float64.val, f64NegOnePointFive], by decide,
   by norm_num [idealEncoder]⟩

/-- C4 counterexample: `encode(1.33) + encode(-1.33)` is `zero_center`, not
`2 · zero_center` as the claim states: the positive branch returns the bare
magnitude `133 · 2^254` with no zero-center offset, so the offsets do not
add up twice. -/
theorem C4_sum_counterexample :
    encode_from_f64 idealEncoder f64OnePoint33 = .ok (133 * 2 ^ 254) ∧
    encode_from_f64 idealEncoder f64NegOnePoint33 =
      .ok (idealEncoder.zero_center - 133 * 2 ^ 254) ∧
    133 * 2 ^ 254 + (idealEncoder.zero_center - 133 * 2 ^ 254) =
      idealEncoder.zero_center ∧
    idealEncoder.zero_center ≠ 2 * idealEncoder.zero_center :=
  ⟨by decide, by decide, by ring, by norm_num [idealEncoder]⟩

/-- C4 amended: for every backend and every positive normal double, the
encodings of the value and of its negation sum to exactly one
`zero_center` (this is also what the repository's own `decimal_test`
asserts: `zero() == res1 + res2`). -/
theorem C4_mirror_sum_zero_center (B : AttributeEncoder) (v : Float64)
    (hc : v.cls = .normal) (hd : 0 < v.digits) :
    ∃ a b : ℤ,
      encode_from_f64 B v = .ok a ∧
      encode_from_f64 B v.mirror = .ok b ∧
      a + b = B.zero_center := by
  refine ⟨v.digits * 2 ^ BITS_IN_ZERO,
          B.zero_center - v.digits * 2 ^ BITS_IN_ZERO, ?_, ?_, by ring⟩
  · rw [encode_from_f64_normal B v hc (by omega)]
    simp [hd]
  · have hm : v.mirror.cls = .normal := by
      simp [Float64.mirror, hc]
    have hdm : v.mirror.digits = -v.digits := rfl
    rw [encode_from_f64_normal B v.mirror hm (by rw [hdm]; omega)]
    rw [hdm]
    have hnp : ¬ 0 < -v.digits := by omega
    simp [hnp]

/-- Witness for C4 amended at `1.33` and the concrete backend constants. -/
theorem C4_mirror_sum_zero_center_witness :
    f64OnePoint33.cls = .normal ∧ 0 < f64OnePoint33.digits ∧
    ∃ a b : ℤ,
      encode_from_f64 idealEncoder f64OnePoint33 = .ok a ∧
      encode_from_f64 idealEncoder f64OnePoint33.mirror = .ok b ∧
      a + b = idealEncoder.zero_center :=
  ⟨rfl, by norm_num [f64OnePoint33],
   C4_mirror_sum_zero_center idealEncoder f64OnePoint33 rfl
     (by norm_num [f64OnePoint33])⟩

/-- C9: the claimed boundedness fails on the code: the finite normal double
`100.0` encodes to `100 · 2^254 > 2^260 > max` for the `rsa_native` bound
(`2^260 − 1`), and `100 · 2^254 > 2^255` also exceeds the BLS12-381 group
order, so the output does not fit a 256-bit backend at all. -/
theorem C9_unbounded_output_code_bug :
    f64Hundred.cls = .normal ∧
    encode_from_f64 idealEncoder f64Hundred = .ok (100 * 2 ^ 254) ∧
    idealEncoder.max < 100 * 2 ^ 254 ∧
    (2 : ℤ) ^ 255 < 100 * 2 ^ 254 :=
  ⟨rfl, by decide, by norm_num [idealEncoder], by norm_num⟩

/-- A `u64` cast is the identity on values already in `[0, 2^64)`. -/
theorem castU64_eq_of_range (z : ℤ) (h1 : 0 ≤ z) (h2 : z < 2 ^ 64) :
    castU64 z = z := by
  unfold castU64
  simp only [show (2 : ℤ) ^ 64 = 18446744073709551616 from by norm_num]
  omega

/-- For a negative 64-bit `v`, Rust's `-value as u64` (wrapping negation
then cast) yields exactly the magnitude `-v` — including `v = -2^63`,
where the wrapped negation is `-2^63` again and the cast gives `2^63`. -/
theorem negAsU64_eq (v : ℤ) (h1 : -2 ^ 63 ≤ v) (h2 : v < 0) :
    castU64 (wrapI64 (-v)) = -v := by
  unfold castU64 wrapI64
  simp only [show (2 : ℤ) ^ 64 = 18446744073709551616 from by norm_num,
    show (2 : ℤ) ^ 63 = 9223372036854775808 from by norm_num]
  omega

/-- Closed form of `encode_from_isize` on the whole 64-bit signed range:
always `Ok(zero_center + v)`. -/
theorem encode_from_isize_eq (B : AttributeEncoder) (v : ℤ)
    (h1 : -2 ^ 63 ≤ v) (h2 : v < 2 ^ 63) :
    encode_from_isize B v = .ok (B.zero_center + v) := by
  unfold encode_from_isize
  by_cases hv : v < 0
  · rw [if_pos hv, negAsU64_eq v h1 hv]
    congr 1
    ring
  · rw [if_neg hv, castU64_eq_of_range v (by omega) (by omega)]

/-- On a successful parse, the timestamp encoder returns
`zero_center + (timestamp as u64)`. -/
theorem encode_ts_of_parse (B : AttributeEncoder) (s : String)
    (t : FixedInstant) (ht : parseRFC3339 s = some t) :
    encode_from_rfc3339_as_unixtimestamp B s =
      .ok (B.zero_center + castU64 t.epochSecs) := by
  unfold encode_from_rfc3339_as_unixtimestamp
  rw [ht]

/-- On a successful parse, the days encoder returns
`zero_center + (num_days as u64)` relative to the 1900 base instant. -/
theorem encode_days_of_parse (B : AttributeEncoder) (s : String)
    (t : FixedInstant) (ht : parseRFC3339 s = some t) :
    encode_from_rfc3339_as_dayssince1900 B s =
      .ok (B.zero_center + castU64 (days1900 t)) := by
  have hbase : parseRFC3339 "1900-01-01T00:00:00.000+00:00" =
      some base1900 := by decide
  unfold encode_from_rfc3339_as_dayssince1900
  rw [ht, hbase]
  rfl

/-- C5 counterexample: `"1969-12-31T23:59:59+00:00"` parses to epoch second
`-1`, but the code casts `timestamp()` to `u64` first, returning
`zero_center + (2^64 − 1)` instead of the claimed
`zero_center + (−1)`. -/
theorem C5_pre_epoch_counterexample :
    parseRFC3339 "1969-12-31T23:59:59+00:00" = some ⟨-1, 0⟩ ∧
    encode_from_rfc3339_as_unixtimestamp idealEncoder
        "1969-12-31T23:59:59+00:00" =
      .ok (idealEncoder.zero_center + (2 ^ 64 - 1)) ∧
    idealEncoder.zero_center + ((2 : ℤ) ^ 64 - 1) ≠
      idealEncoder.zero_center + (-1) :=
  ⟨by decide, by decide, by norm_num⟩

/-- C5 amended: `encode_from_rfc3339_as_unixtimestamp` errs exactly when
RFC3339 parsing fails (`"1900"` does fail), and on success returns
`zero_center + (timestamp cast to u64)`, which equals
`zero_center + timestamp` whenever the instant is at or after the Unix
epoch; the two positive examples of the claim hold. -/
theorem C5_timestamp_encoding (B : AttributeEncoder) (s : String) :
    ((encode_from_rfc3339_as_unixtimestamp B s).isOk =
       (parseRFC3339 s).isSome) ∧
    (∀ t, parseRFC3339 s = some t →
       encode_from_rfc3339_as_unixtimestamp B s =
         .ok (B.zero_center + castU64 t.epochSecs)) ∧
    (∀ t, parseRFC3339 s = some t → 0 ≤ t.epochSecs → t.epochSecs < 2 ^ 64 →
       encode_from_rfc3339_as_unixtimestamp B s =
         .ok (B.zero_center + t.epochSecs)) ∧
    encode_from_rfc3339_as_unixtimestamp B "1900" = .error parseErrMsg ∧
    encode_from_rfc3339_as_unixtimestamp B "1970-01-01T00:00:00.000+00:00" =
      .ok B.zero_center ∧
    encode_from_rfc3339_as_unixtimestamp B "2018-01-26T18:30:09.453+00:00" =
      .ok (B.zero_center + 1516991409) := by
  have h1900 : parseRFC3339 "1900" = none := by decide
  have h1970 : parseRFC3339 "1970-01-01T00:00:00.000+00:00" =
      some ⟨0, 0⟩ := by decide
  have h2018 : parseRFC3339 "2018-01-26T18:30:09.453+00:00" =
      some ⟨1516991409, 453000000⟩ := by decide
  refine ⟨?_, ?_, ?_, ?_, ?_, ?_⟩
  · unfold encode_from_rfc3339_as_unixtimestamp
    cases parseRFC3339 s <;> rfl
  · intro t ht
    exact encode_ts_of_parse B s t ht
  · intro t ht h0 hb
    rw [encode_ts_of_parse B s t ht, castU64_eq_of_range t.epochSecs h0 hb]
  · unfold encode_from_rfc3339_as_unixtimestamp
    rw [h1900]
  · rw [encode_ts_of_parse B _ ⟨0, 0⟩ h1970]
    have hc : castU64 ((⟨0, 0⟩ : FixedInstant).epochSecs) = 0 := by decide
    rw [hc, add_zero]
  · rw [encode_ts_of_parse B _ ⟨1516991409, 453000000⟩ h2018]
    have hc : castU64 ((⟨1516991409, 453000000⟩ : FixedInstant).epochSecs) =
        1516991409 := by decide
    rw [hc]

/-- Witness for C5 amended: the parse hypothesis discharged at the
2018 test vector. -/
theorem C5_timestamp_encoding_witness :
    encode_from_rfc3339_as_unixtimestamp idealEncoder
        "2018-01-26T18:30:09.453+00:00" =
      .ok (idealEncoder.zero_center +
            (⟨1516991409, 453000000⟩ : FixedInstant).epochSecs) :=
  (C5_timestamp_encoding idealEncoder "2018-01-26T18:30:09.453+00:00").2.2.1
    ⟨1516991409, 453000000⟩ (by decide) (by decide) (by decide)

/-- C6 counterexample: `"1899-12-30T00:00:00+00:00"` is two whole days
before the 1900 epoch (`num_days = -2`), but the code casts the day count
to `u64`, returning `zero_center + (2^64 − 2)` instead of the claimed
signed-path result `zero_center − 2`. -/
theorem C6_pre_1900_counterexample :
    parseRFC3339 "1899-12-30T00:00:00+00:00" = some ⟨-2209161600, 0⟩ ∧
    days1900 ⟨-2209161600, 0⟩ = -2 ∧
    encode_from_rfc3339_as_dayssince1900 idealEncoder
        "1899-12-30T00:00:00+00:00" =
      .ok (idealEncoder.zero_center + (2 ^ 64 - 2)) ∧
    idealEncoder.zero_center + ((2 : ℤ) ^ 64 - 2) ≠
      idealEncoder.zero_center + (-2) :=
  ⟨by decide, by decide, by decide, by norm_num⟩

/-- C6 amended: on a successful parse, the encoder returns `zero_center`
plus the truncated whole-day difference from the 1900 epoch cast to `u64`
(not routed through the signed path), which equals `zero_center + days`
whenever the instant is at or after the 1900 epoch; the claim's example
holds (`30303` days). -/
theorem C6_days_encoding (B : AttributeEncoder) (s : String) :
    (∀ t, parseRFC3339 s = some t →
       encode_from_rfc3339_as_dayssince1900 B s =
         .ok (B.zero_center + castU64 (days1900 t))) ∧
    (∀ t, parseRFC3339 s = some t → 0 ≤ days1900 t → days1900 t < 2 ^ 64 →
       encode_from_rfc3339_as_dayssince1900 B s =
         .ok (B.zero_center + days1900 t)) ∧
    encode_from_rfc3339_as_dayssince1900 B "1982-12-20T10:45:00.000-06:00" =
      .ok (B.zero_center + 30303) := by
  have hbase : parseRFC3339 "1900-01-01T00:00:00.000+00:00" =
      some base1900 := by decide
  have h82 : parseRFC3339 "1982-12-20T10:45:00.000-06:00" =
      some ⟨409250700, 0⟩ := by decide
  refine ⟨?_, ?_, ?_⟩
  · intro t ht
    exact encode_days_of_parse B s t ht
  · intro t ht h0 hb
    rw [encode_days_of_parse B s t ht, castU64_eq_of_range (days1900 t) h0 hb]
  · rw [encode_days_of_parse B _ ⟨409250700, 0⟩ h82]
    have hc : castU64 (days1900 ⟨409250700, 0⟩) = 30303 := by decide
    rw [hc]

/-- Witness for C6 amended: the parse hypothesis discharged at the claim's
own example date. -/
theorem C6_days_encoding_witness :
    encode_from_rfc3339_as_dayssince1900 idealEncoder
        "1982-12-20T10:45:00.000-06:00" =
      .ok (idealEncoder.zero_center + castU64 (days1900 ⟨409250700, 0⟩)) :=
  (C6_days_encoding idealEncoder "1982-12-20T10:45:00.000-06:00").1
    ⟨409250700, 0⟩ (by decide)

/-- C7 counterexample: `…09.453` denotes a strictly earlier instant than
`…09.999` of the same second, yet both encode to the same value (the code
truncates to whole seconds), so "earlier always encodes strictly smaller"
fails even on the post-1970 band. -/
theorem C7_subsecond_counterexample :
    parseRFC3339 "2018-01-26T18:30:09.453+00:00" =
      some ⟨1516991409, 453000000⟩ ∧
    parseRFC3339 "2018-01-26T18:30:09.999+00:00" =
      some ⟨1516991409, 999000000⟩ ∧
    FixedInstant.earlier ⟨1516991409, 453000000⟩ ⟨1516991409, 999000000⟩ ∧
    encode_from_rfc3339_as_unixtimestamp idealEncoder
        "2018-01-26T18:30:09.453+00:00" =
      encode_from_rfc3339_as_unixtimestamp idealEncoder
        "2018-01-26T18:30:09.999+00:00" ∧
    ¬ (idealEncoder.zero_center + 1516991409 <
        idealEncoder.zero_center + (1516991409 : ℤ)) :=
  ⟨by decide, by decide, by decide, by decide, by norm_num⟩

/-- C7 amended: both date encoders are strictly monotone in the integer
the code actually encodes — the epoch seconds for the timestamp encoder and
the truncated day count since 1900 for the days encoder — provided those
counts are nonnegative (instant at or after the respective epoch) and below
`2^64`. -/
theorem C7_date_monotonicity (B : AttributeEncoder) (s1 s2 : String)
    (t1 t2 : FixedInstant)
    (h1 : parseRFC3339 s1 = some t1) (h2 : parseRFC3339 s2 = some t2) :
    (0 ≤ t1.epochSecs → t1.epochSecs < t2.epochSecs → t2.epochSecs < 2 ^ 64 →
       ∃ a b : ℤ,
         encode_from_rfc3339_as_unixtimestamp B s1 = .ok a ∧
         encode_from_rfc3339_as_unixtimestamp B s2 = .ok b ∧ a < b) ∧
    (0 ≤ days1900 t1 → days1900 t1 < days1900 t2 → days1900 t2 < 2 ^ 64 →
       ∃ a b : ℤ,
         encode_from_rfc3339_as_dayssince1900 B s1 = .ok a ∧
         encode_from_rfc3339_as_dayssince1900 B s2 = .ok b ∧ a < b) := by
  constructor
  · intro ha hab hb
    refine ⟨B.zero_center + t1.epochSecs, B.zero_center + t2.epochSecs,
            ?_, ?_, by omega⟩
    · rw [encode_ts_of_parse B s1 t1 h1,
        castU64_eq_of_range t1.epochSecs ha (by omega)]
    · rw [encode_ts_of_parse B s2 t2 h2,
        castU64_eq_of_range t2.epochSecs (by omega) hb]
  · intro ha hab hb
    refine ⟨B.zero_center + days1900 t1, B.zero_center + days1900 t2,
            ?_, ?_, by omega⟩
    · rw [encode_days_of_parse B s1 t1 h1,
        castU64_eq_of_range (days1900 t1) ha (by omega)]
    · rw [encode_days_of_parse B s2 t2 h2,
        castU64_eq_of_range (days1900 t2) (by omega) hb]

/-- Witness for C7 amended: the Unix epoch against the claim's 1982 example
date, for both encoders. -/
theorem C7_date_monotonicity_witness :
    (∃ a b : ℤ,
       encode_from_rfc3339_as_unixtimestamp idealEncoder
           "1970-01-01T00:00:00.000+00:00" = .ok a ∧
       encode_from_rfc3339_as_unixtimestamp idealEncoder
           "1982-12-20T10:45:00.000-06:00" = .ok b ∧ a < b) ∧
    (∃ a b : ℤ,
       encode_from_rfc3339_as_dayssince1900 idealEncoder
           "1970-01-01T00:00:00.000+00:00" = .ok a ∧
       encode_from_rfc3339_as_dayssince1900 idealEncoder
           "1982-12-20T10:45:00.000-06:00" = .ok b ∧ a < b) := by
  have h := C7_date_monotonicity idealEncoder
      "1970-01-01T00:00:00.000+00:00" "1982-12-20T10:45:00.000-06:00"
      ⟨0, 0⟩ ⟨409250700, 0⟩ (by decide) (by decide)
  exact ⟨h.1 (by decide) (by decide) (by decide),
         h.2 (by decide) (by decide) (by decide)⟩

/-- C8: on the supported ranges, `encode_from_isize` returns
`Ok(zero_center + v)` for `v ≥ 0` and `Ok(zero_center − |v|)` for `v < 0`,
`encode_from_usize` returns `Ok(zero_center + v)`; both always succeed,
both are strictly order-preserving, and `encode_from_usize 0` is exactly
`zero_center`, for every backend. -/
theorem C8_integer_encoders (B : AttributeEncoder) :
    (∀ v : ℤ, -2 ^ 63 ≤ v → v < 2 ^ 63 →
       encode_from_isize B v =
         .ok (if 0 ≤ v then B.zero_center + v else B.zero_center - -v)) ∧
    (∀ v w : ℤ, -2 ^ 63 ≤ v → w < 2 ^ 63 → v < w →
       ∃ a b : ℤ, encode_from_isize B v = .ok a ∧
         encode_from_isize B w = .ok b ∧ a < b) ∧
    (∀ n : ℕ, n < 2 ^ 64 →
       encode_from_usize B n = .ok (B.zero_center + (n : ℤ))) ∧
    (∀ n m : ℕ, n < m → m < 2 ^ 64 →
       ∃ a b : ℤ, encode_from_usize B n = .ok a ∧
         encode_from_usize B m = .ok b ∧ a < b) ∧
    encode_from_usize B 0 = .ok B.zero_center := by
  have husize : ∀ n : ℕ, n < 2 ^ 64 →
      encode_from_usize B n = .ok (B.zero_center + (n : ℤ)) := by
    intro n hn
    unfold encode_from_usize
    rw [castU64_eq_of_range (n : ℤ) (by positivity) (by exact_mod_cast hn)]
  refine ⟨?_, ?_, husize, ?_, ?_⟩
  · intro v hv1 hv2
    rw [encode_from_isize_eq B v hv1 hv2]
    by_cases h0 : 0 ≤ v
    · rw [if_pos h0]
    · rw [if_neg h0]
      congr 1
      ring
  · intro v w hv hw hvw
    exact ⟨B.zero_center + v, B.zero_center + w,
      encode_from_isize_eq B v hv (by omega),
      encode_from_isize_eq B w (by omega) hw, by omega⟩
  · intro n m hnm hm
    refine ⟨B.zero_center + (n : ℤ), B.zero_center + (m : ℤ),
      husize n (by omega), husize m hm, ?_⟩
    have : (n : ℤ) < (m : ℤ) := by exact_mod_cast hnm
    omega
  · have := husize 0 (by norm_num)
    rw [this]
    norm_num

/-- Witness for C8 at a negative input, discharging the range
hypotheses. -/
theorem C8_integer_encoders_witness :
    encode_from_isize idealEncoder (-3) =
      .ok (if 0 ≤ (-3 : ℤ) then idealEncoder.zero_center + (-3)
           else idealEncoder.zero_center - -(-3)) :=
  (C8_integer_encoders idealEncoder).1 (-3) (by norm_num) (by norm_num)

/-- C10: for every negative 64-bit `v`, the magnitude computation
`-value as u64` (wrapping negation, then cast) produces exactly `|v|`, so
`encode_from_isize` returns `Ok(zero_center − |v|)` without aborting — in
particular at `v = isize::MIN = -2^63`, where the wrapped negation
overflows back to `-2^63` and the cast still yields `2^63 = |isize::MIN|`. -/
theorem C10_isize_min_negation (B : AttributeEncoder) :
    (∀ v : ℤ, -2 ^ 63 ≤ v → v < 0 →
       encode_from_isize B v = .ok (B.zero_center - -v)) ∧
    castU64 (wrapI64 (-(-2 ^ 63))) = 2 ^ 63 ∧
    encode_from_isize B (-2 ^ 63) = .ok (B.zero_center - 2 ^ 63) := by
  have hneg : ∀ v : ℤ, -2 ^ 63 ≤ v → v < 0 →
      encode_from_isize B v = .ok (B.zero_center - -v) := by
    intro v h1 h2
    unfold encode_from_isize
    rw [if_pos h2, negAsU64_eq v h1 h2]
  refine ⟨hneg, ?_, ?_⟩
  · rw [negAsU64_eq (-2 ^ 63) (by norm_num) (by norm_num)]
    norm_num
  · rw [hneg (-2 ^ 63) (by norm_num) (by norm_num)]
    norm_num

/-- Witness for C10 at `isize::MIN` itself. -/
theorem C10_isize_min_negation_witness :
    encode_from_isize idealEncoder (-2 ^ 63) =
      .ok (idealEncoder.zero_center - -(-2 ^ 63)) :=
  (C10_isize_min_negation idealEncoder).1 (-2 ^ 63) (by norm_num) (by norm_num)
